import Mathlib

/-!
Shallow embedding of the jira-lab session-credential core.

Server side (src/server/src/auth/auth.service.ts, auth.controller.ts,
src/server/src/scripts/cleanup-tokens.ts): the refresh-token ledger is a
list of records; Prisma queries become list operations; `new Date()` /
`Date.now()` become an explicit `now : Int` (milliseconds); the random
UUID minted for a new family and the database id of a new row become
explicit parameters.  SHA-256 hashing of the signed carrier token is
modelled by an injective wrapper (`TokenHash`), matching the collision
freeness the code relies on (the `tokenHash` column is unique).

Client side (src/src/features/auth/authStore.ts,
src/src/features/jira/api/jira.client.ts): the zustand store state is a
record, the in-flight refresh promise is a promise identifier, and the
synchronous prefix of `refresh()` (everything before its first await)
is a state transition; the interceptor `http` is a function of the
environment's responses (fetch statuses, refresh outcome).
-/

namespace JiraLab

/-- The payload of a signed refresh carrier JWT as produced by
`generateRefreshToken`: `{ sub, email, familyId, type: "refresh" }`, plus the
signature (modelled as the secret that signed it) and the `expiresIn: "30d"`
expiry claim. -/
structure RefreshCarrier where
  sub : String
  email : String
  familyId : String
  typ : String
  exp : Int
  secret : String
deriving Repr, DecidableEq

/-- SHA-256 digest of a carrier token (`hashToken`).  Modelled injectively:
the code relies on the digest identifying exactly one token (the `tokenHash`
column is `@unique`). -/
structure TokenHash where
  val : RefreshCarrier
deriving Repr, DecidableEq

/-- `hashToken` from auth.service.ts. -/
def hashToken (t : RefreshCarrier) : TokenHash := ⟨t⟩

/-- A row of the `refreshToken` table (prisma model RefreshToken). -/
structure RefreshRecord where
  id : String
  userId : String
  tokenHash : TokenHash
  familyId : String
  expiresAt : Int
  isRevoked : Bool
  replacedBy : Option TokenHash
  createdAt : Int
  lastUsedAt : Option Int
  userAgent : Option String
  ipAddress : Option String
deriving Repr, DecidableEq

/-- The refresh-token table, in insertion order. -/
abbrev Ledger := List RefreshRecord

/-- Signing configuration: `JWT_ACCESS_SECRET` and `JWT_REFRESH_SECRET`. -/
structure Config where
  accessSecret : String
  refreshSecret : String
deriving Repr, DecidableEq

/-- Request metadata picked from headers by the controller. -/
structure Metadata where
  userAgent : Option String
  ipAddress : Option String
deriving Repr, DecidableEq

def fifteenMinutesMs : Int := 15 * 60 * 1000

def thirtyDaysMs : Int := 30 * 24 * 60 * 60 * 1000

def ninetyDaysMs : Int := 90 * 24 * 60 * 60 * 1000

/-- A signed access token: `jwt.sign({ sub, email })` under the access secret
with `expiresIn: "15m"` (auth.module.ts). -/
structure AccessToken where
  sub : String
  email : String
  exp : Int
  secret : String
deriving Repr, DecidableEq

/-- `generateAccessToken` from auth.service.ts. -/
def generateAccessToken (cfg : Config) (now : Int) (userId email : String) : AccessToken :=
  { sub := userId, email := email, exp := now + fifteenMinutesMs, secret := cfg.accessSecret }

/-- The carrier minted inside `generateRefreshToken`: payload
`{ sub, email, familyId, type: "refresh" }` signed with the refresh secret,
`expiresIn: "30d"`. -/
def mintRefreshCarrier (cfg : Config) (now : Int) (userId email familyId : String) :
    RefreshCarrier :=
  { sub := userId, email := email, familyId := familyId, typ := "refresh",
    exp := now + thirtyDaysMs, secret := cfg.refreshSecret }

/-- The row persisted by `storeRefreshToken` (expiresAt = now + 30 days). -/
def mkRefreshRecord (id userId : String) (h : TokenHash) (familyId : String)
    (now : Int) (md : Metadata) : RefreshRecord :=
  { id := id, userId := userId, tokenHash := h, familyId := familyId,
    expiresAt := now + thirtyDaysMs, isRevoked := false, replacedBy := none,
    createdAt := now, lastUsedAt := none,
    userAgent := md.userAgent, ipAddress := md.ipAddress }

/-- `prisma.refreshToken.findUnique({ where: { tokenHash } })`. -/
def findByHash (l : Ledger) (h : TokenHash) : Option RefreshRecord :=
  l.find? (fun r => decide (r.tokenHash = h))

/-- `prisma.refreshToken.update({ where: { tokenHash }, data })`: the row with
this (unique) hash is rewritten by `f`. -/
def updateByHash (l : Ledger) (h : TokenHash) (f : RefreshRecord → RefreshRecord) : Ledger :=
  l.map (fun r => if r.tokenHash = h then f r else r)

/-- `detectTokenReuse`: revoke every row sharing the family
(`updateMany({ where: { familyId }, data: { isRevoked: true } })`). -/
def detectTokenReuse (l : Ledger) (familyId : String) : Ledger :=
  l.map (fun r => if r.familyId = familyId then { r with isRevoked := true } else r)

/-- `revokeUserTokens`: `updateMany({ where: { userId, isRevoked: false },
data: { isRevoked: true } })`. -/
def revokeUserTokens (l : Ledger) (userId : String) : Ledger :=
  l.map (fun r =>
    if r.userId = userId ∧ r.isRevoked = false then { r with isRevoked := true } else r)

/-- The distinct failures raised inside the `try` block of
`validateRefreshToken` before its catch-all rewraps them. -/
inductive InnerError
  | jwtVerifyFailed
  | unauthorized (msg : String)
deriving Repr, DecidableEq

/-- The validated payload returned on success. -/
structure RefreshPayload where
  sub : String
  email : String
  familyId : String
deriving Repr, DecidableEq

/-- The body of the `try` block of `validateRefreshToken`: `jwt.verify` under
the refresh secret (signature and carrier expiry), the `type === "refresh"`
check, and the ledger lookup with the
`!storedToken || storedToken.isRevoked || storedToken.expiresAt < new Date()`
check. -/
def validateRefreshTokenInner (l : Ledger) (token : RefreshCarrier) (cfg : Config)
    (now : Int) : Except InnerError RefreshPayload :=
  if token.secret = cfg.refreshSecret ∧ now < token.exp then
    if token.typ = "refresh" then
      match findByHash l (hashToken token) with
      | none => .error (.unauthorized "Token expired or revoked")
      | some stored =>
        if stored.isRevoked = true ∨ stored.expiresAt < now then
          .error (.unauthorized "Token expired or revoked")
        else
          .ok { sub := token.sub, email := token.email, familyId := token.familyId }
    else .error (.unauthorized "Invalid token type")
  else .error .jwtVerifyFailed

/-- `validateRefreshToken`: the catch-all turns every inner failure into
`UnauthorizedException("Invalid refresh token")`. -/
def validateRefreshToken (l : Ledger) (token : RefreshCarrier) (cfg : Config)
    (now : Int) : Except String RefreshPayload :=
  match validateRefreshTokenInner l token cfg now with
  | .ok p => .ok p
  | .error _ => .error "Invalid refresh token"

/-- The pair returned by a successful rotation (or issuance). -/
structure TokenPair where
  accessToken : AccessToken
  refreshToken : RefreshCarrier
deriving Repr, DecidableEq

/-- `rotateRefreshToken`, with the fresh UUID for the successor family and
the database id of the new row as explicit parameters.  The second component
is the ledger after the call (also on the throwing paths, where the thrown
`UnauthorizedException` message is the `Except.error`). -/
def rotateRefreshToken (l : Ledger) (oldToken : RefreshCarrier) (cfg : Config)
    (now : Int) (newFamilyId newId : String) (md : Metadata) :
    Except String TokenPair × Ledger :=
  match validateRefreshToken l oldToken cfg now with
  | .error e => (.error e, l)
  | .ok payload =>
    let tokenHash := hashToken oldToken
    match findByHash l tokenHash with
    | none => (.error "Invalid refresh token", l)
    | some stored =>
      if stored.isRevoked then
        (.error "Invalid refresh token", detectTokenReuse l stored.familyId)
      else
        let l1 := updateByHash l tokenHash
          (fun r => { r with isRevoked := true, lastUsedAt := some now })
        let newCarrier := mintRefreshCarrier cfg now payload.sub payload.email newFamilyId
        let newHash := hashToken newCarrier
        let l2 := l1 ++ [mkRefreshRecord newId payload.sub newHash newFamilyId now md]
        let l3 := updateByHash l2 tokenHash (fun r => { r with replacedBy := some newHash })
        (.ok { accessToken := generateAccessToken cfg now payload.sub payload.email,
               refreshToken := newCarrier }, l3)

/-- Response of the logout endpoints (message plus `clearCookie`). -/
structure LogoutResponse where
  message : String
  cookieCleared : Bool
deriving Repr, DecidableEq

/-- `POST /auth/logout` (auth.controller.ts): revoke the caller's refresh
tokens via `revokeUserTokens`, clear the cookie. -/
def logout (l : Ledger) (callerId : String) : LogoutResponse × Ledger :=
  ({ message := "Logged out successfully", cookieCleared := true },
   revokeUserTokens l callerId)

/-- `POST /auth/logout-all` (auth.controller.ts): same `revokeUserTokens`
call, different message. -/
def logoutAll (l : Ledger) (callerId : String) : LogoutResponse × Ledger :=
  ({ message := "Logged out from all devices", cookieCleared := true },
   revokeUserTokens l callerId)

/-- The deletion predicate of `cleanupExpiredTokens` / the cleanup script:
`expiresAt < now` OR (`isRevoked` AND `createdAt < now - 90 days`). -/
def cleanupQualifies (now : Int) (r : RefreshRecord) : Bool :=
  decide (r.expiresAt < now) || (r.isRevoked && decide (r.createdAt < now - ninetyDaysMs))

/-- `cleanupExpiredTokens` (and the deleteMany of cleanup-tokens.ts):
remaining table and the returned `deleted.count`. -/
def cleanupExpiredTokens (l : Ledger) (now : Int) : Ledger × Nat :=
  (l.filter (fun r => !cleanupQualifies now r), l.countP (cleanupQualifies now))

/-- The zustand store state of authStore.ts; the in-flight refresh promise is
identified by a number, the user profile by its stored JSON string. -/
structure ClientAuthState where
  accessToken : Option String
  user : Option String
  isRefreshing : Bool
  refreshPromise : Option Nat
deriving Repr, DecidableEq

/-- What one call of `refresh()` does before anything else can run: the
promise handed back to the caller, how many network requests this call
started, and the store state when the call returns. -/
structure RefreshInvocation where
  promise : Nat
  networkCalls : Nat
  state : ClientAuthState
deriving Repr, DecidableEq

/-- The branch of `refresh()` that starts a new attempt: the IIFE runs
synchronously up to `await fetch` (setting `isRefreshing: true` and firing
one network request), then `set({ refreshPromise: promise })` runs before
`refresh()` returns. -/
def clientRefreshStart (s : ClientAuthState) (freshId : Nat) : RefreshInvocation :=
  { promise := freshId, networkCalls := 1,
    state := { s with isRefreshing := true, refreshPromise := some freshId } }

/-- The synchronous body of `refresh()` from authStore.ts:
`if (isRefreshing && refreshPromise) return refreshPromise;` else start a
new attempt.  The whole body runs without an intervening await, so this is
the store-level step each caller observes. -/
def clientRefresh (s : ClientAuthState) (freshId : Nat) : RefreshInvocation :=
  match s.refreshPromise with
  | some p =>
    if s.isRefreshing then { promise := p, networkCalls := 0, state := s }
    else clientRefreshStart s freshId
  | none => clientRefreshStart s freshId

/-- A burst of callers hitting `refresh()` back to back while no refresh
completes in between (the network reply has not arrived, so no promise
settles): returns the promise each caller got, the total number of network
requests started, and the final store state. -/
def refreshBurst (s : ClientAuthState) : List Nat → List Nat × Nat × ClientAuthState
  | [] => ([], 0, s)
  | freshId :: rest =>
    let inv := clientRefresh s freshId
    let more := refreshBurst inv.state rest
    (inv.promise :: more.1, inv.networkCalls + more.2.1, more.2.2)

/-- The environment a single `http` call runs against: the status of the
original fetch, the outcome of `useAuthStore.getState().refresh()` (the new
access token, or `none` when the refresh promise rejects), and the status of
the retried fetch (consulted only if a retry happens). -/
structure FetchEnv where
  status1 : Nat
  refreshOutcome : Option String
  status2 : Nat
deriving Repr, DecidableEq

/-- What `http` ends up doing with the response. -/
inductive HttpResult
  | success (status : Nat)
  | errorText (status : Nat)
  | sessionExpired
  | unauthorized
deriving Repr, DecidableEq

/-- Observable trace of one `http` call from jira.client.ts. -/
structure HttpTrace where
  result : HttpResult
  fetchCount : Nat
  loggedOut : Bool
  redirectedToLogin : Bool
deriving Repr, DecidableEq

/-- `Response.ok`: status in the range 200-299. -/
def statusOk (s : Nat) : Bool := 200 ≤ s && s < 300

/-- The `http` wrapper of jira.client.ts.  Each call builds a fresh
`requestInit` object, so the `retriedRequests` WeakMap guard is initially
clear: the first 401 always enters the refresh-and-retry branch, a second
401 (or a failed refresh) logs the session out and redirects. -/
def httpRun (env : FetchEnv) : HttpTrace :=
  if env.status1 = 401 then
    match env.refreshOutcome with
    | none =>
      { result := .sessionExpired, fetchCount := 1,
        loggedOut := true, redirectedToLogin := true }
    | some _ =>
      if env.status2 = 401 then
        { result := .unauthorized, fetchCount := 2,
          loggedOut := true, redirectedToLogin := true }
      else if statusOk env.status2 then
        { result := .success env.status2, fetchCount := 2,
          loggedOut := false, redirectedToLogin := false }
      else
        { result := .errorText env.status2, fetchCount := 2,
          loggedOut := false, redirectedToLogin := false }
  else if statusOk env.status1 then
    { result := .success env.status1, fetchCount := 1,
      loggedOut := false, redirectedToLogin := false }
  else
    { result := .errorText env.status1, fetchCount := 1,
      loggedOut := false, redirectedToLogin := false }

/-! Concrete fixtures used by witnesses and counterexamples. -/

/-- A concrete signing configuration. -/
def exCfg : Config := { accessSecret := "as", refreshSecret := "rs" }

/-- Empty request metadata. -/
def exMd : Metadata := { userAgent := none, ipAddress := none }

/-- A concrete refresh carrier for user `uid` in family `fid`. -/
def exCarrier (uid fid : String) : RefreshCarrier :=
  { sub := uid, email := "demo@jiralab.dev", familyId := fid, typ := "refresh",
    exp := 5000, secret := "rs" }

/-- A concrete ledger row for user `uid` holding the hash of `exCarrier uid fid`. -/
def exRecord (uid fid : String) (revoked : Bool) : RefreshRecord :=
  { id := "r-" ++ uid ++ fid, userId := uid, tokenHash := hashToken (exCarrier uid fid),
    familyId := fid, expiresAt := 5000, isRevoked := revoked, replacedBy := none,
    createdAt := 0, lastUsedAt := none, userAgent := none, ipAddress := none }

/-- A concrete client store state that is not refreshing. -/
def exClientState : ClientAuthState :=
  { accessToken := none, user := some "u1", isRefreshing := false, refreshPromise := none }

/-- Composite effect of a successful rotation on the presented row: the first
update sets `isRevoked` and `lastUsedAt`, the second sets `replacedBy`. -/
def rotatedOld (now : Int) (newHash : TokenHash) (r : RefreshRecord) : RefreshRecord :=
  { r with isRevoked := true, lastUsedAt := some now, replacedBy := some newHash }

/-- A fixture row expiring just before the sweep time 100. -/
def exStale : RefreshRecord := { exRecord "u1" "famA" false with expiresAt := 99 }

/-- A fixture row expiring well after the sweep time 100. -/
def exFresh : RefreshRecord := { exRecord "u2" "famB" false with expiresAt := 86500 }

/-! Helper lemmas shared by the claim theorems. -/

/-- The hash wrapper is injective (models collision-free SHA-256). -/
theorem hashToken_inj {a b : RefreshCarrier} (h : hashToken a = hashToken b) : a = b :=
  congrArg TokenHash.val h

/-- Looking up a hash after a hash-preserving rewrite of every row finds the
rewritten image of the row found before. -/
theorem findByHash_map (l : Ledger) (h : TokenHash) (f : RefreshRecord → RefreshRecord)
    (hf : ∀ r, (f r).tokenHash = r.tokenHash) :
    findByHash (l.map f) h = (findByHash l h).map f := by
  unfold findByHash
  rw [List.find?_map]
  have hp : ((fun r => decide (r.tokenHash = h)) ∘ f) = (fun r => decide (r.tokenHash = h)) := by
    funext r
    simp [Function.comp, hf]
  rw [hp]

/-- Whenever the ledger row is missing, revoked, or expired (or the carrier
itself fails signature, expiry, or type checks), the inner validation body
raises some error. -/
theorem validateInner_error_of_missing_or_revoked (l : Ledger) (t : RefreshCarrier)
    (cfg : Config) (now : Int)
    (h : findByHash l (hashToken t) = none ∨
         ∃ r, findByHash l (hashToken t) = some r ∧ (r.isRevoked = true ∨ r.expiresAt < now)) :
    ∃ e, validateRefreshTokenInner l t cfg now = .error e := by
  unfold validateRefreshTokenInner
  by_cases h1 : t.secret = cfg.refreshSecret ∧ now < t.exp
  · by_cases h2 : t.typ = "refresh"
    · rcases h with h | ⟨r, hr, hrev⟩
      · exact ⟨.unauthorized "Token expired or revoked", by simp [h1, h2, h]⟩
      · exact ⟨.unauthorized "Token expired or revoked", by simp [h1, h2, hr, hrev]⟩
    · exact ⟨.unauthorized "Invalid token type", by simp [h1, h2]⟩
  · exact ⟨.jwtVerifyFailed, by simp [h1]⟩

/-- The catch-all of `validateRefreshToken` maps any inner error to the one
generic message. -/
theorem validate_error_of_inner (l : Ledger) (t : RefreshCarrier) (cfg : Config)
    (now : Int) (h : ∃ e, validateRefreshTokenInner l t cfg now = .error e) :
    validateRefreshToken l t cfg now = .error "Invalid refresh token" := by
  obtain ⟨e, he⟩ := h
  unfold validateRefreshToken
  rw [he]

/-- When validation throws, `rotateRefreshToken` rethrows and the ledger is
left exactly as it was. -/
theorem rotate_error_of_validate_error (l : Ledger) (t : RefreshCarrier) (cfg : Config)
    (now : Int) (nf nid : String) (md : Metadata)
    (h : validateRefreshToken l t cfg now = .error "Invalid refresh token") :
    rotateRefreshToken l t cfg now nf nid md = (.error "Invalid refresh token", l) := by
  unfold rotateRefreshToken
  rw [h]

/-- A row that is already revoked is fixed by writing `isRevoked := true`. -/
theorem eq_set_revoked_of_revoked {r : RefreshRecord} (h : r.isRevoked = true) :
    r = { r with isRevoked := true } := by
  cases r
  simp_all

/-! Claim theorems. -/

/-- Claim C1 (code bug evidence): when the presented refresh credential's
ledger row is missing or already revoked, `rotateRefreshToken` does fail with
the generic 401 `UnauthorizedException("Invalid refresh token")` and issues no
tokens, but the ledger is returned completely unchanged: the reuse branch that
would call `detectTokenReuse` (cascade revocation of the `familyId`) is
unreachable, because `validateRefreshToken` is invoked first and already
throws on exactly those rows. -/
theorem rotate_missing_or_revoked_no_cascade (l : Ledger) (t : RefreshCarrier)
    (cfg : Config) (now : Int) (nf nid : String) (md : Metadata)
    (h : findByHash l (hashToken t) = none ∨
         ∃ r, findByHash l (hashToken t) = some r ∧ r.isRevoked = true) :
    rotateRefreshToken l t cfg now nf nid md = (.error "Invalid refresh token", l) := by
  apply rotate_error_of_validate_error
  apply validate_error_of_inner
  apply validateInner_error_of_missing_or_revoked
  rcases h with h | ⟨r, hr, hrev⟩
  · exact Or.inl h
  · exact Or.inr ⟨r, hr, Or.inl hrev⟩

/-- Claim C1 witness: a revoked row for user u1 in family famA together with
an unrevoked sibling row in the same family; presenting the revoked
credential yields the generic 401 and the sibling is NOT cascade-revoked (the
whole ledger is unchanged). -/
theorem rotate_missing_or_revoked_no_cascade_witness :
    rotateRefreshToken [exRecord "u1" "famA" true, exRecord "sib" "famA" false]
        (exCarrier "u1" "famA") exCfg 100 "famB" "id2" exMd =
      (.error "Invalid refresh token",
       [exRecord "u1" "famA" true, exRecord "sib" "famA" false]) :=
  rotate_missing_or_revoked_no_cascade _ _ _ _ _ _ _
    (Or.inr ⟨exRecord "u1" "famA" true, by decide, by decide⟩)

/-- Claim C9: every failure of refresh-credential validation — bad signature,
expired carrier, wrong token type, unknown hash, revoked row, expired row —
surfaces as the same generic error "Invalid refresh token"; the catch-all
rewraps even the typed inner throws, so the cause is indistinguishable to
callers. -/
theorem validateRefreshToken_single_generic_error (l : Ledger) (t : RefreshCarrier)
    (cfg : Config) (now : Int) :
    (∀ e, validateRefreshTokenInner l t cfg now = .error e →
        validateRefreshToken l t cfg now = .error "Invalid refresh token") ∧
    (¬ t.secret = cfg.refreshSecret ∨ ¬ now < t.exp ∨ ¬ t.typ = "refresh" ∨
        findByHash l (hashToken t) = none ∨
        (∃ r, findByHash l (hashToken t) = some r ∧ (r.isRevoked = true ∨ r.expiresAt < now)) →
      validateRefreshToken l t cfg now = .error "Invalid refresh token") := by
  constructor
  · intro e he
    exact validate_error_of_inner l t cfg now ⟨e, he⟩
  · intro h
    apply validate_error_of_inner
    by_cases h1 : t.secret = cfg.refreshSecret ∧ now < t.exp
    · by_cases h2 : t.typ = "refresh"
      · apply validateInner_error_of_missing_or_revoked
        rcases h with h | h | h | h | h
        · exact absurd h1.1 h
        · exact absurd h1.2 h
        · exact absurd h2 h
        · exact Or.inl h
        · exact Or.inr h
      · exact ⟨.unauthorized "Invalid token type", by simp [validateRefreshTokenInner, h1, h2]⟩
    · exact ⟨.jwtVerifyFailed, by simp [validateRefreshTokenInner, h1]⟩

/-- Claim C9 witness: an unknown hash (empty ledger) and a wrong token type
both produce the identical generic error. -/
theorem validateRefreshToken_single_generic_error_witness :
    validateRefreshToken [] (exCarrier "u1" "famA") exCfg 0 =
        .error "Invalid refresh token" ∧
    validateRefreshToken [exRecord "u1" "famA" false]
        { exCarrier "u1" "famA" with typ := "access" } exCfg 0 =
        .error "Invalid refresh token" :=
  ⟨(validateRefreshToken_single_generic_error [] (exCarrier "u1" "famA") exCfg 0).2
      (Or.inr (Or.inr (Or.inr (Or.inl rfl)))),
   (validateRefreshToken_single_generic_error [exRecord "u1" "famA" false]
      { exCarrier "u1" "famA" with typ := "access" } exCfg 0).2
      (Or.inr (Or.inr (Or.inl (by decide))))⟩

/-- Claim C10: `revokeUserTokens` rewrites row `i` to itself with only
`isRevoked` flipped, and only when the row belongs to the given user and was
not yet revoked; rows of other users and already-revoked rows are returned
verbatim, no rows are added or removed. -/
theorem revokeUserTokens_frame (l : Ledger) (u : String) (i : Nat) (r : RefreshRecord)
    (hi : l[i]? = some r) :
    (revokeUserTokens l u).length = l.length ∧
    (revokeUserTokens l u)[i]? =
      some (if r.userId = u ∧ r.isRevoked = false then { r with isRevoked := true } else r) := by
  constructor
  · simp [revokeUserTokens]
  · simp [revokeUserTokens, List.getElem?_map, hi]

/-- Claim C10 witness: a record of another user (u2) is returned verbatim by
`revokeUserTokens _ "u1"`, and the table length is preserved. -/
theorem revokeUserTokens_frame_witness :
    (revokeUserTokens [exRecord "u2" "famB" false] "u1").length = 1 ∧
    (revokeUserTokens [exRecord "u2" "famB" false] "u1")[0]? =
      some (exRecord "u2" "famB" false) := by
  have h := revokeUserTokens_frame [exRecord "u2" "famB" false] "u1" 0
    (exRecord "u2" "famB" false) rfl
  rw [if_neg (by decide)] at h
  exact h

/-- Claim C5 counterexample: user u1 holds two unrevoked refresh records in
two distinct lineages (famA, the caller's active one, and famB, another
device's); after `POST /auth/logout` the famB record is revoked as well —
the claim that other lineages remain unrevoked is false. -/
theorem logout_other_lineage_counterexample :
    (logout [exRecord "u1" "famA" false, exRecord "u1" "famB" false] "u1").2 =
      [exRecord "u1" "famA" true, exRecord "u1" "famB" true] := by
  decide

/-- Claim C5 (amended): `POST /auth/logout` revokes every unrevoked refresh
record of the caller across ALL lineages/devices (the same
`revokeUserTokens` call that backs logout-all), leaves records of other
users and already-revoked records verbatim, and clears the cookie. -/
theorem logout_revokes_every_lineage_of_caller (l : Ledger) (u : String) (i : Nat)
    (r : RefreshRecord) (hi : l[i]? = some r) :
    ((logout l u).2)[i]? =
      some (if r.userId = u ∧ r.isRevoked = false then { r with isRevoked := true } else r) ∧
    (logout l u).1.cookieCleared = true := by
  constructor
  · simp [logout, revokeUserTokens, List.getElem?_map, hi]
  · rfl

/-- Claim C5 (amended) witness: logout by u1 revokes u1's record of another
lineage famB. -/
theorem logout_revokes_every_lineage_of_caller_witness :
    ((logout [exRecord "u1" "famB" false] "u1").2)[0]? =
      some (exRecord "u1" "famB" true) ∧
    (logout [exRecord "u1" "famB" false] "u1").1.cookieCleared = true := by
  have h := logout_revokes_every_lineage_of_caller [exRecord "u1" "famB" false] "u1" 0
    (exRecord "u1" "famB" false) rfl
  rw [if_pos (by exact ⟨rfl, rfl⟩)] at h
  exact h

/-- The per-row rewrite of `revokeUserTokens` preserves every field except
`isRevoked`, in particular the token hash. -/
theorem revoke_rewrite_preserves_hash (u : String) (r : RefreshRecord) :
    ((if r.userId = u ∧ r.isRevoked = false then { r with isRevoked := true } else r) :
      RefreshRecord).tokenHash = r.tokenHash := by
  by_cases hc : r.userId = u ∧ r.isRevoked = false <;> simp [hc]

/-- The per-row rewrite of `revokeUserTokens` leaves a row of the user
revoked, whether it was revoked before or not. -/
theorem revoke_rewrite_isRevoked (u : String) (r : RefreshRecord) (hu : r.userId = u) :
    ((if r.userId = u ∧ r.isRevoked = false then { r with isRevoked := true } else r) :
      RefreshRecord).isRevoked = true := by
  by_cases hrev : r.isRevoked = false
  · rw [if_pos ⟨hu, hrev⟩]
  · rw [if_neg (fun hc => hrev hc.2)]
    simpa using hrev

/-- Claim C6: after `POST /auth/logout-all` for a user, every record of that
user is revoked in place, and presenting any refresh credential whose ledger
row belongs to that user to `rotate()` afterwards fails with the generic 401
and leaves the post-logout ledger unchanged. -/
theorem logoutAll_invalidates_everywhere (l : Ledger) (u : String) :
    (∀ (i : Nat) (r : RefreshRecord), l[i]? = some r → r.userId = u →
      ((logoutAll l u).2)[i]? = some { r with isRevoked := true }) ∧
    (∀ (t : RefreshCarrier) (cfg : Config) (now : Int) (nf nid : String) (md : Metadata)
        (r : RefreshRecord),
      findByHash l (hashToken t) = some r → r.userId = u →
      rotateRefreshToken (logoutAll l u).2 t cfg now nf nid md =
        (.error "Invalid refresh token", (logoutAll l u).2)) := by
  constructor
  · intro i r hi hu
    have hx : ((logoutAll l u).2)[i]? =
        some (if r.userId = u ∧ r.isRevoked = false then { r with isRevoked := true } else r) := by
      simp [logoutAll, revokeUserTokens, List.getElem?_map, hi]
    rw [hx]
    by_cases hrev : r.isRevoked = false
    · rw [if_pos ⟨hu, hrev⟩]
    · rw [if_neg (fun hc => hrev hc.2)]
      have ht : r.isRevoked = true := by simpa using hrev
      rw [← eq_set_revoked_of_revoked ht]
  · intro t cfg now nf nid md r hfind hu
    apply rotate_error_of_validate_error
    apply validate_error_of_inner
    apply validateInner_error_of_missing_or_revoked
    right
    have hmap : findByHash (logoutAll l u).2 (hashToken t) =
        some (if r.userId = u ∧ r.isRevoked = false then { r with isRevoked := true } else r) := by
      have := findByHash_map l (hashToken t)
        (fun r => if r.userId = u ∧ r.isRevoked = false then { r with isRevoked := true } else r)
        (revoke_rewrite_preserves_hash u)
      simp only [logoutAll, revokeUserTokens]
      rw [this, hfind]
      rfl
    exact ⟨_, hmap, Or.inl (revoke_rewrite_isRevoked u r hu)⟩

/-- Claim C6 witness: after logout-all for u1 the single record is revoked in
place, and rotating its credential afterwards fails with the generic 401
without touching the ledger. -/
theorem logoutAll_invalidates_everywhere_witness :
    ((logoutAll [exRecord "u1" "famA" false] "u1").2)[0]? =
      some (exRecord "u1" "famA" true) ∧
    rotateRefreshToken (logoutAll [exRecord "u1" "famA" false] "u1").2
        (exCarrier "u1" "famA") exCfg 100 "famB" "id2" exMd =
      (.error "Invalid refresh token", (logoutAll [exRecord "u1" "famA" false] "u1").2) := by
  have h := logoutAll_invalidates_everywhere [exRecord "u1" "famA" false] "u1"
  refine ⟨?_, h.2 (exCarrier "u1" "famA") exCfg 100 "famB" "id2" exMd
    (exRecord "u1" "famA" false) (by decide) rfl⟩
  have h1 := h.1 0 (exRecord "u1" "famA" false) rfl rfl
  exact h1.trans (by decide)

/-- Counting the rows a Boolean predicate keeps and the rows it drops
partitions the table. -/
theorem countP_add_length_filter (p : RefreshRecord → Bool) (l : List RefreshRecord) :
    l.countP p + (l.filter (fun r => !p r)).length = l.length := by
  induction l with
  | nil => rfl
  | cons a as ih =>
    rw [List.countP_cons, List.filter_cons]
    by_cases hq : p a = true
    · simp [hq]
      omega
    · have hq2 : p a = false := by simpa using hq
      simp [hq2]
      omega

/-- Claim C7: the sweep deletes exactly the rows with `expiresAt < now` or
(`isRevoked` and `createdAt` older than the 90-day retention window),
returns the count of deleted rows, keeps the surviving rows untouched and in
order (a sublist), and re-running it on the result deletes nothing. -/
theorem cleanup_sweep_precise (l : Ledger) (now : Int) :
    (∀ r, cleanupQualifies now r = true ↔
      (r.expiresAt < now ∨ (r.isRevoked = true ∧ r.createdAt < now - ninetyDaysMs))) ∧
    (∀ r, r ∈ (cleanupExpiredTokens l now).1 ↔ r ∈ l ∧ cleanupQualifies now r = false) ∧
    (cleanupExpiredTokens l now).1.Sublist l ∧
    (cleanupExpiredTokens l now).2 + (cleanupExpiredTokens l now).1.length = l.length ∧
    cleanupExpiredTokens (cleanupExpiredTokens l now).1 now =
      ((cleanupExpiredTokens l now).1, 0) := by
  refine ⟨?_, ?_, ?_, ?_, ?_⟩
  · intro r
    simp [cleanupQualifies]
  · intro r
    simp [cleanupExpiredTokens, List.mem_filter]
  · exact List.filter_sublist _
  · exact countP_add_length_filter _ l
  · have hstable : (cleanupExpiredTokens l now).1.filter
        (fun r => !cleanupQualifies now r) = (cleanupExpiredTokens l now).1 := by
      rw [List.filter_eq_self]
      intro r hr
      simp only [cleanupExpiredTokens, List.mem_filter] at hr
      exact hr.2
    have hzero : (cleanupExpiredTokens l now).1.countP (cleanupQualifies now) = 0 := by
      rw [List.countP_eq_zero]
      intro r hr
      simp only [cleanupExpiredTokens, List.mem_filter] at hr
      have hq : cleanupQualifies now r = false := by simpa using hr.2
      simp [hq]
    simp only [cleanupExpiredTokens]
    rw [Prod.mk.injEq]
    exact ⟨hstable, hzero⟩

/-- Claim C7 witness: with one row expiring at 99 and one at 86500, sweeping
at time 100 keeps exactly the fresh row, reports one deletion, and a second
sweep deletes nothing. -/
theorem cleanup_sweep_precise_witness :
    exStale ∉ (cleanupExpiredTokens [exStale, exFresh] 100).1 ∧
    exFresh ∈ (cleanupExpiredTokens [exStale, exFresh] 100).1 ∧
    (cleanupExpiredTokens [exStale, exFresh] 100).2 +
      (cleanupExpiredTokens [exStale, exFresh] 100).1.length = 2 ∧
    cleanupExpiredTokens (cleanupExpiredTokens [exStale, exFresh] 100).1 100 =
      ((cleanupExpiredTokens [exStale, exFresh] 100).1, 0) := by
  have h := cleanup_sweep_precise [exStale, exFresh] 100
  refine ⟨fun hmem => ?_, ?_, ?_, h.2.2.2.2⟩
  · have hq := ((h.2.1 exStale).mp hmem).2
    exact absurd hq (by decide)
  · exact (h.2.1 exFresh).mpr ⟨by decide, by decide⟩
  · simpa using h.2.2.2.1

/-- While a refresh is in flight, any burst of further callers all receive
the stored promise, no network call is started, and the store state does not
move. -/
theorem refreshBurst_inflight (s : ClientAuthState) (p : Nat) (fids : List Nat)
    (h1 : s.isRefreshing = true) (h2 : s.refreshPromise = some p) :
    refreshBurst s fids = (fids.map (fun _ => p), 0, s) := by
  induction fids with
  | nil => rfl
  | cons a as ih =>
    simp [refreshBurst, clientRefresh, h2, h1, ih]

/-- Claim C3: if a refresh future already exists, `refresh()` returns it
unchanged with no network call; consequently a burst of N ≥ 1 back-to-back
callers starting from an idle store triggers exactly one network call and
every caller receives the same promise. -/
theorem clientRefresh_single_flight :
    (∀ (s : ClientAuthState) (p fid : Nat), s.isRefreshing = true →
      s.refreshPromise = some p →
      clientRefresh s fid = { promise := p, networkCalls := 0, state := s }) ∧
    (∀ (s : ClientAuthState) (fid : Nat) (fids : List Nat), s.isRefreshing = false →
      (refreshBurst s (fid :: fids)).2.1 = 1 ∧
      ∀ q ∈ (refreshBurst s (fid :: fids)).1, q = fid) := by
  constructor
  · intro s p fid h1 h2
    simp [clientRefresh, h2, h1]
  · intro s fid fids h
    have hstart : clientRefresh s fid = clientRefreshStart s fid := by
      cases hp : s.refreshPromise with
      | none => simp [clientRefresh, hp]
      | some p => simp [clientRefresh, hp, h]
    have hrest := refreshBurst_inflight
      { s with isRefreshing := true, refreshPromise := some fid } fid fids rfl rfl
    constructor
    · simp [refreshBurst, hstart, clientRefreshStart, hrest]
    · intro q hq
      simp only [refreshBurst, hstart, clientRefreshStart, hrest, List.mem_cons,
        List.mem_map] at hq
      rcases hq with hq | ⟨a, _, hq⟩
      · exact hq
      · exact hq.symm

/-- Claim C3 witness: three back-to-back callers from an idle store produce
one network call and all get promise 7. -/
theorem clientRefresh_single_flight_witness :
    (refreshBurst exClientState [7, 8, 9]).2.1 = 1 ∧
    (refreshBurst exClientState [7, 8, 9]).1 = [7, 7, 7] :=
  ⟨(clientRefresh_single_flight.2 exClientState 7 [8, 9] rfl).1, by decide⟩

/-- Claim C4: the interceptor performs at most two fetches per original
request; a second fetch happens only after a 401 with a successful refresh;
a 401 whose refresh fails logs the session out and redirects after a single
fetch; a retry that 401s again logs out and redirects with no third fetch;
and a non-401 response is never retried and never logs out. -/
theorem http_retry_budget (env : FetchEnv) :
    (httpRun env).fetchCount ≤ 2 ∧
    ((httpRun env).fetchCount = 2 → env.status1 = 401 ∧ env.refreshOutcome ≠ none) ∧
    (env.status1 = 401 → env.refreshOutcome = none →
      httpRun env = { result := .sessionExpired, fetchCount := 1,
                      loggedOut := true, redirectedToLogin := true }) ∧
    (env.status1 = 401 → env.refreshOutcome ≠ none → env.status2 = 401 →
      httpRun env = { result := .unauthorized, fetchCount := 2,
                      loggedOut := true, redirectedToLogin := true }) ∧
    (env.status1 ≠ 401 → (httpRun env).fetchCount = 1 ∧ (httpRun env).loggedOut = false) := by
  obtain ⟨s1, ro, s2⟩ := env
  by_cases h1 : s1 = 401 <;> cases ro <;> by_cases h2 : s2 = 401 <;>
    by_cases h3 : statusOk s1 = true <;> by_cases h4 : statusOk s2 = true <;>
      simp [httpRun, h1, h2, h3, h4]

/-- Claim C4 witness: a 401, a successful refresh, then a second 401 ends the
session after exactly two fetches. -/
theorem http_retry_budget_witness :
    httpRun { status1 := 401, refreshOutcome := some "tok", status2 := 401 } =
      { result := .unauthorized, fetchCount := 2,
        loggedOut := true, redirectedToLogin := true } :=
  (http_retry_budget { status1 := 401, refreshOutcome := some "tok", status2 := 401
    }).2.2.2.1 rfl (by simp) rfl

/-- On a valid presented credential (signature, expiry, type, found,
unrevoked, unexpired) whose successor hash is fresh, `rotateRefreshToken`
returns the freshly minted pair and the ledger becomes: every row rewritten
by the revoke-and-link update when it carries the presented hash, plus
exactly one appended successor row. -/
theorem rotate_success_normal_form
    (l : Ledger) (t : RefreshCarrier) (cfg : Config) (now : Int)
    (nf nid : String) (md : Metadata) (stored : RefreshRecord)
    (hsec : t.secret = cfg.refreshSecret) (hexp : now < t.exp) (htyp : t.typ = "refresh")
    (hfind : findByHash l (hashToken t) = some stored)
    (hrev : stored.isRevoked = false) (hnexp : ¬ stored.expiresAt < now)
    (hfresh : ∀ r ∈ l, r.tokenHash ≠ hashToken (mintRefreshCarrier cfg now t.sub t.email nf)) :
    rotateRefreshToken l t cfg now nf nid md =
      (.ok { accessToken := generateAccessToken cfg now t.sub t.email,
             refreshToken := mintRefreshCarrier cfg now t.sub t.email nf },
       l.map (fun r => if r.tokenHash = hashToken t
           then rotatedOld now (hashToken (mintRefreshCarrier cfg now t.sub t.email nf)) r
           else r)
         ++ [mkRefreshRecord nid t.sub
              (hashToken (mintRefreshCarrier cfg now t.sub t.email nf)) nf now md]) := by
  have hfind2 : l.find? (fun r => decide (r.tokenHash = hashToken t)) = some stored := hfind
  have hhtb := List.find?_some hfind2
  have hht : stored.tokenHash = hashToken t := by simpa using hhtb
  have hne : hashToken t ≠ hashToken (mintRefreshCarrier cfg now t.sub t.email nf) := by
    rw [← hht]
    exact hfresh stored (List.mem_of_find?_eq_some hfind2)
  have hval : validateRefreshToken l t cfg now =
      .ok { sub := t.sub, email := t.email, familyId := t.familyId } := by
    simp [validateRefreshToken, validateRefreshTokenInner, hsec, hexp, htyp, hfind, hrev,
      hnexp]
  simp only [rotateRefreshToken, hval, hfind]
  rw [if_neg (by simp [hrev] : ¬ stored.isRevoked = true)]
  rw [Prod.mk.injEq]
  refine ⟨rfl, ?_⟩
  unfold updateByHash
  rw [List.map_append, List.map_map]
  congr 1
  · apply List.map_congr_left
    intro r _
    by_cases hc : r.tokenHash = hashToken t
    · simp only [Function.comp_apply, if_pos hc]
      rfl
    · simp only [Function.comp_apply, if_neg hc]
  · have hrec : (mkRefreshRecord nid t.sub
        (hashToken (mintRefreshCarrier cfg now t.sub t.email nf)) nf now md).tokenHash =
        hashToken (mintRefreshCarrier cfg now t.sub t.email nf) := rfl
    simp only [List.map_cons, List.map_nil]
    rw [if_neg (fun he => hne (hrec.symm.trans he).symm)]

/-- Claim C2: a successful `rotate(T)` on a found, unrevoked, unexpired row
returns a fresh access credential together with the newly minted refresh
carrier; afterwards the row for `hash(T)` has `isRevoked = true`,
`lastUsedAt` stamped with the rotation time, and `replacedBy` pointing at the
new carrier's hash; the ledger is the old table (rewritten only at the
presented hash) plus exactly one appended row, that new row is unrevoked,
and exactly one row carries the fresh hash. -/
theorem rotate_happy_path
    (l : Ledger) (t : RefreshCarrier) (cfg : Config) (now : Int)
    (nf nid : String) (md : Metadata) (stored : RefreshRecord)
    (hsec : t.secret = cfg.refreshSecret) (hexp : now < t.exp) (htyp : t.typ = "refresh")
    (hfind : findByHash l (hashToken t) = some stored)
    (hrev : stored.isRevoked = false) (hnexp : ¬ stored.expiresAt < now)
    (hfresh : ∀ r ∈ l, r.tokenHash ≠ hashToken (mintRefreshCarrier cfg now t.sub t.email nf)) :
    (rotateRefreshToken l t cfg now nf nid md).1 =
      .ok { accessToken := generateAccessToken cfg now t.sub t.email,
            refreshToken := mintRefreshCarrier cfg now t.sub t.email nf } ∧
    findByHash (rotateRefreshToken l t cfg now nf nid md).2 (hashToken t) =
      some (rotatedOld now (hashToken (mintRefreshCarrier cfg now t.sub t.email nf)) stored) ∧
    (rotateRefreshToken l t cfg now nf nid md).2 =
      l.map (fun r => if r.tokenHash = hashToken t
          then rotatedOld now (hashToken (mintRefreshCarrier cfg now t.sub t.email nf)) r
          else r)
        ++ [mkRefreshRecord nid t.sub
             (hashToken (mintRefreshCarrier cfg now t.sub t.email nf)) nf now md] ∧
    (mkRefreshRecord nid t.sub (hashToken (mintRefreshCarrier cfg now t.sub t.email nf))
        nf now md).isRevoked = false ∧
    (rotateRefreshToken l t cfg now nf nid md).2.countP
        (fun r => decide (r.tokenHash =
          hashToken (mintRefreshCarrier cfg now t.sub t.email nf))) = 1 := by
  have hnf := rotate_success_normal_form l t cfg now nf nid md stored hsec hexp htyp hfind
    hrev hnexp hfresh
  have hfind2 : l.find? (fun r => decide (r.tokenHash = hashToken t)) = some stored := hfind
  have hht : stored.tokenHash = hashToken t := by simpa using List.find?_some hfind2
  have hpres : ∀ r : RefreshRecord, ((if r.tokenHash = hashToken t
      then rotatedOld now (hashToken (mintRefreshCarrier cfg now t.sub t.email nf)) r
      else r) : RefreshRecord).tokenHash = r.tokenHash := by
    intro r
    by_cases hc : r.tokenHash = hashToken t <;> simp [hc, rotatedOld]
  refine ⟨by rw [hnf], ?_, by rw [hnf], rfl, ?_⟩
  · rw [hnf]
    unfold findByHash
    rw [List.find?_append]
    have hmap := findByHash_map l (hashToken t) _ hpres
    unfold findByHash at hmap
    rw [hmap, hfind2]
    simp [hht]
  · rw [hnf]
    rw [List.countP_append]
    have h0 : (l.map (fun r => if r.tokenHash = hashToken t
        then rotatedOld now (hashToken (mintRefreshCarrier cfg now t.sub t.email nf)) r
        else r)).countP
        (fun r => decide (r.tokenHash =
          hashToken (mintRefreshCarrier cfg now t.sub t.email nf))) = 0 := by
      rw [List.countP_eq_zero]
      intro a ha
      rw [List.mem_map] at ha
      obtain ⟨r, hr, rfl⟩ := ha
      simp only [decide_eq_true_eq, hpres r]
      exact hfresh r hr
    rw [h0, List.countP_singleton]
    rw [if_pos (by simp [mkRefreshRecord])]

/-- Claim C2 witness: one valid ledger row for u1; rotating its credential at
time 100 yields the minted pair, rewrites the presented row with
revoke/stamp/link, and exactly one row carries the fresh hash. -/
theorem rotate_happy_path_witness :
    (rotateRefreshToken [exRecord "u1" "famA" false] (exCarrier "u1" "famA") exCfg 100
        "famB" "id2" exMd).1 =
      .ok { accessToken := generateAccessToken exCfg 100 "u1" "demo@jiralab.dev",
            refreshToken := mintRefreshCarrier exCfg 100 "u1" "demo@jiralab.dev" "famB" } ∧
    findByHash (rotateRefreshToken [exRecord "u1" "famA" false] (exCarrier "u1" "famA")
        exCfg 100 "famB" "id2" exMd).2 (hashToken (exCarrier "u1" "famA")) =
      some (rotatedOld 100
        (hashToken (mintRefreshCarrier exCfg 100 "u1" "demo@jiralab.dev" "famB"))
        (exRecord "u1" "famA" false)) ∧
    (rotateRefreshToken [exRecord "u1" "famA" false] (exCarrier "u1" "famA") exCfg 100
        "famB" "id2" exMd).2.countP
      (fun r => decide (r.tokenHash =
        hashToken (mintRefreshCarrier exCfg 100 "u1" "demo@jiralab.dev" "famB"))) = 1 := by
  have h := rotate_happy_path [exRecord "u1" "famA" false] (exCarrier "u1" "famA") exCfg 100
    "famB" "id2" exMd (exRecord "u1" "famA" false) (by decide) (by decide) rfl (by decide)
    (by decide) (by decide) (by decide)
  exact ⟨h.1, h.2.1, h.2.2.2.2⟩

/-- In a duplicate-free list of family ids, any given id occurs at most
once. -/
theorem countP_eq_le_one_of_nodup (xs : List String) (h : xs.Nodup) (v : String) :
    xs.countP (fun x => decide (x = v)) ≤ 1 := by
  induction xs with
  | nil => simp
  | cons a as ih =>
    rw [List.countP_cons]
    rcases List.nodup_cons.mp h with ⟨ha, has⟩
    by_cases hav : a = v
    · subst hav
      have h0 : as.countP (fun x => decide (x = a)) = 0 := by
        rw [List.countP_eq_zero]
        intro b hb
        simp only [decide_eq_true_eq]
        intro hba
        rw [hba] at hb
        exact ha hb
      simp [h0]
    · simpa [hav] using ih has

/-- `detectTokenReuse` does not move rows and leaves every row of a different
family untouched. -/
theorem detectTokenReuse_frame (l : Ledger) (fid : String) (i : Nat) (r : RefreshRecord)
    (hi : l[i]? = some r) (hne : r.familyId ≠ fid) :
    (detectTokenReuse l fid)[i]? = some r := by
  simp [detectTokenReuse, List.getElem?_map, hi, hne]

/-- Claim C8: a successful rotation creates the successor under the freshly
generated `familyId`, different from the presented row's `familyId`; if
family ids were pairwise distinct before (each family holds exactly the one
record created under it), they stay pairwise distinct afterwards, every
family id occurs in at most one row, and a familyId cascade
(`detectTokenReuse`) leaves every row of any other family untouched — so it
revokes at most that single record, not the rotation history. -/
theorem rotate_fresh_family
    (l : Ledger) (t : RefreshCarrier) (cfg : Config) (now : Int)
    (nf nid : String) (md : Metadata) (stored : RefreshRecord)
    (hsec : t.secret = cfg.refreshSecret) (hexp : now < t.exp) (htyp : t.typ = "refresh")
    (hfind : findByHash l (hashToken t) = some stored)
    (hrev : stored.isRevoked = false) (hnexp : ¬ stored.expiresAt < now)
    (hfresh : ∀ r ∈ l, r.tokenHash ≠ hashToken (mintRefreshCarrier cfg now t.sub t.email nf))
    (hfam : ∀ r ∈ l, r.familyId ≠ nf)
    (hnodup : (l.map (fun r => r.familyId)).Nodup) :
    stored.familyId ≠ nf ∧
    (mkRefreshRecord nid t.sub (hashToken (mintRefreshCarrier cfg now t.sub t.email nf))
        nf now md).familyId = nf ∧
    ((rotateRefreshToken l t cfg now nf nid md).2.map (fun r => r.familyId)).Nodup ∧
    (∀ fid : String, (rotateRefreshToken l t cfg now nf nid md).2.countP
        (fun r => decide (r.familyId = fid)) ≤ 1) ∧
    (∀ (fid : String) (i : Nat) (r : RefreshRecord),
      ((rotateRefreshToken l t cfg now nf nid md).2)[i]? = some r → r.familyId ≠ fid →
      (detectTokenReuse (rotateRefreshToken l t cfg now nf nid md).2 fid)[i]? = some r) := by
  have hnf := rotate_success_normal_form l t cfg now nf nid md stored hsec hexp htyp hfind
    hrev hnexp hfresh
  have hfind2 : l.find? (fun r => decide (r.tokenHash = hashToken t)) = some stored := hfind
  have hfam2 : ((rotateRefreshToken l t cfg now nf nid md).2.map (fun r => r.familyId)) =
      l.map (fun r => r.familyId) ++ [nf] := by
    rw [hnf, List.map_append, List.map_map]
    congr 1
    apply List.map_congr_left
    intro r _
    by_cases hc : r.tokenHash = hashToken t <;> simp [Function.comp, hc, rotatedOld]
  have hnodup2 : (l.map (fun r => r.familyId) ++ [nf]).Nodup := by
    rw [List.nodup_append]
    refine ⟨hnodup, List.nodup_singleton nf, ?_⟩
    intro a ha hb
    rw [List.mem_singleton] at hb
    subst hb
    rw [List.mem_map] at ha
    obtain ⟨r, hr, hfa⟩ := ha
    exact hfam r hr hfa
  have hnodup3 : ((rotateRefreshToken l t cfg now nf nid md).2.map
      (fun r => r.familyId)).Nodup := by
    rw [hfam2]
    exact hnodup2
  refine ⟨hfam stored (List.mem_of_find?_eq_some hfind2), rfl, hnodup3, ?_, ?_⟩
  · intro fid
    have h1 := countP_eq_le_one_of_nodup _ hnodup3 fid
    rw [List.countP_map] at h1
    exact h1
  · intro fid i r hi hne2
    exact detectTokenReuse_frame _ fid i r hi hne2

/-- Claim C8 witness: rotating u1's famA credential creates the successor in
famB; family ids stay duplicate-free, famA occurs at most once afterwards,
and cascading famA leaves the successor row (index 1, family famB)
untouched. -/
theorem rotate_fresh_family_witness :
    (exRecord "u1" "famA" false).familyId ≠ "famB" ∧
    ((rotateRefreshToken [exRecord "u1" "famA" false] (exCarrier "u1" "famA") exCfg 100
        "famB" "id2" exMd).2.map (fun r => r.familyId)).Nodup ∧
    (rotateRefreshToken [exRecord "u1" "famA" false] (exCarrier "u1" "famA") exCfg 100
        "famB" "id2" exMd).2.countP (fun r => decide (r.familyId = "famA")) ≤ 1 ∧
    (detectTokenReuse (rotateRefreshToken [exRecord "u1" "famA" false]
        (exCarrier "u1" "famA") exCfg 100 "famB" "id2" exMd).2 "famA")[1]? =
      some (mkRefreshRecord "id2" "u1"
        (hashToken (mintRefreshCarrier exCfg 100 "u1" "demo@jiralab.dev" "famB"))
        "famB" 100 exMd) := by
  have h := rotate_fresh_family [exRecord "u1" "famA" false] (exCarrier "u1" "famA") exCfg
    100 "famB" "id2" exMd (exRecord "u1" "famA" false) (by decide) (by decide) rfl
    (by decide) (by decide) (by decide) (by decide) (by decide) (by decide)
  exact ⟨h.1, h.2.2.1, h.2.2.2.1 "famA",
    h.2.2.2.2 "famA" 1 _ (by decide) (by decide)⟩

end JiraLab
